import Mathlib

/-!
Shallow embedding of the P2P chat tracker (daemon/chatserver.py) and the
peer client (peer_client.py). Python dicts are modelled as association
lists with insertion-order semantics: inserting an existing key replaces
its value in place, inserting a new key appends at the end, deletion
removes the entry. Python truthiness of required request fields is
modelled explicitly.
-/

namespace P2PChat

/-- Lookup in an association list, first matching key wins (dict lookup). -/
def dictLookup {α : Type} : String → List (String × α) → Option α
  | _, [] => none
  | k, e :: rest => if e.1 == k then some e.2 else dictLookup k rest

/-- Dict insertion: replace the value at the first matching key in place,
or append a new entry at the end (Python dict assignment semantics). -/
def dictInsert {α : Type} : String → α → List (String × α) → List (String × α)
  | k, v, [] => [(k, v)]
  | k, v, e :: rest => if e.1 == k then (k, v) :: rest else e :: dictInsert k v rest

/-- Dict deletion: remove the first entry with the given key. -/
def dictErase {α : Type} : String → List (String × α) → List (String × α)
  | _, [] => []
  | k, e :: rest => if e.1 == k then rest else e :: dictErase k rest

/-- Keys of an association list, in order. -/
def keys {α : Type} (l : List (String × α)) : List String :=
  l.map Prod.fst

/-- Key membership test (Python `in` on a dict). -/
def containsKey {α : Type} (k : String) (l : List (String × α)) : Bool :=
  (dictLookup k l).isSome

/-- Lookup with a default value. -/
def dictGetD {α : Type} (k : String) (l : List (String × α)) (d : α) : α :=
  (dictLookup k l).getD d

/-- Python truthiness of an optional string field: absent or empty is falsy. -/
def truthyS : Option String → Bool
  | none => false
  | some s => s ≠ ""

/-- Python truthiness of an optional numeric field: absent or zero is falsy. -/
def truthyN : Option Nat → Bool
  | none => false
  | some n => n ≠ 0

/-- One registered peer: value stored in `ChatServer.peers` for a peer_id. -/
structure PeerRecord where
  ip : String
  port : Nat
  username : String
  timestamp : Nat
deriving Repr, DecidableEq

/-- The tracker state: `self.peers` (Registry) and `self.channels`
(ChannelIndex), both Python dicts. -/
structure ServerState where
  peers : List (String × PeerRecord)
  channels : List (String × List String)
deriving Repr, DecidableEq

/-- A decoded JSON request: `request.get(field)` yields an optional value. -/
structure Request where
  method : Option String := none
  peer_id : Option String := none
  ip : Option String := none
  port : Option Nat := none
  username : Option String := none
  channel : Option String := none
deriving Repr, DecidableEq

/-- Response status discriminator. -/
inductive Status where
  | success : Status
  | error : Status
deriving Repr, DecidableEq

/-- A JSON response object; absent fields are `none`. The `channel` field
of a get_peers response echoes the request channel, which may be null,
hence the doubled option there. -/
structure Response where
  status : Status
  message : Option String := none
  peer_id : Option String := none
  username : Option String := none
  peers : Option (List (String × PeerRecord)) := none
  channel : Option (Option String) := none
  channels : Option (List String) := none
  count : Option Nat := none
deriving Repr, DecidableEq

/-- `ChatServer.register_peer`: upsert the PeerRecord after validating the
required fields by Python truthiness. `now` stands for datetime.now(). -/
def register_peer (now : Nat) (s : ServerState) (req : Request) :
    ServerState × Response :=
  if truthyS req.peer_id && truthyS req.ip && truthyN req.port then
    let pid := req.peer_id.getD ""
    let uname := req.username.getD "Anonymous"
    let record : PeerRecord :=
      { ip := req.ip.getD "", port := req.port.getD 0,
        username := uname, timestamp := now }
    ({ s with peers := dictInsert pid record s.peers },
     { status := .success, message := some "Peer registered successfully",
       peer_id := some pid, username := some uname })
  else
    (s, { status := .error,
          message := some "Missing required fields: peer_id, ip, port" })

/-- The dict comprehension in get_peer_list:
pid maps to peers[pid] for pid in member list, if pid in peers. -/
def dictComp (peers : List (String × PeerRecord)) (pids : List String) :
    List (String × PeerRecord) :=
  pids.foldl (fun acc pid =>
    match dictLookup pid peers with
    | some r => dictInsert pid r acc
    | none => acc) []

/-- `ChatServer.get_peer_list`: if the channel field is truthy and present
in the ChannelIndex, return the records of its members that are still
registered; otherwise return a copy of the whole Registry. -/
def get_peer_list (s : ServerState) (req : Request) :
    ServerState × Response :=
  let peer_list :=
    if truthyS req.channel && containsKey (req.channel.getD "") s.channels then
      dictComp s.peers (dictGetD (req.channel.getD "") s.channels [])
    else
      s.peers
  (s, { status := .success, peers := some peer_list,
        channel := some req.channel, count := some peer_list.length })

/-- The member-list update step of join_channel: append the peer_id
unless it is already a member. -/
def joinMembers (pid : String) (cur : List String) : List String :=
  if cur.contains pid then cur else cur ++ [pid]

/-- `ChatServer.join_channel`: create the channel member list if absent,
append the peer_id if not already a member. -/
def join_channel (s : ServerState) (req : Request) :
    ServerState × Response :=
  if truthyS req.peer_id && truthyS req.channel then
    let pid := req.peer_id.getD ""
    let ch := req.channel.getD ""
    let cur := dictGetD ch s.channels []
    let updated := joinMembers pid cur
    ({ s with channels := dictInsert ch updated s.channels },
     { status := .success, message := some ("Joined channel: " ++ ch),
       channel := some (some ch) })
  else
    (s, { status := .error,
          message := some "Missing required fields: peer_id, channel" })

/-- `ChatServer.leave_channel`: remove the first occurrence of the peer_id
from the member list when present, deleting the channel if it became
empty; always reports success. -/
def leave_channel (s : ServerState) (req : Request) :
    ServerState × Response :=
  if truthyS req.peer_id && truthyS req.channel then
    let pid := req.peer_id.getD ""
    let ch := req.channel.getD ""
    let channels2 :=
      match dictLookup ch s.channels with
      | some members =>
        if members.contains pid then
          let remaining := members.erase pid
          if remaining.isEmpty then dictErase ch s.channels
          else dictInsert ch remaining s.channels
        else s.channels
      | none => s.channels
    ({ s with channels := channels2 },
     { status := .success, message := some ("Left channel: " ++ ch),
       channel := some (some ch) })
  else
    (s, { status := .error,
          message := some "Missing required fields: peer_id, channel" })

/-- `ChatServer.get_channels`: list the channels whose member list
contains the peer_id. -/
def get_channels (s : ServerState) (req : Request) :
    ServerState × Response :=
  if truthyS req.peer_id then
    let pid := req.peer_id.getD ""
    let user_channels := (s.channels.filter (fun e => e.2.contains pid)).map Prod.fst
    (s, { status := .success, channels := some user_channels,
          count := some user_channels.length })
  else
    (s, { status := .error, message := some "Missing required field: peer_id" })

/-- `ChatServer.logout_peer`: delete the PeerRecord if present, remove the
first occurrence of the peer_id from every channel member list, and delete
any channel whose member list is now empty. -/
def logout_peer (s : ServerState) (req : Request) :
    ServerState × Response :=
  if truthyS req.peer_id then
    let pid := req.peer_id.getD ""
    let peers2 := dictErase pid s.peers
    let channels2 := s.channels.filterMap (fun e =>
      let remaining := if e.2.contains pid then e.2.erase pid else e.2
      if remaining.isEmpty then none else some (e.1, remaining))
    ({ peers := peers2, channels := channels2 },
     { status := .success, message := some "Logged out successfully" })
  else
    (s, { status := .error, message := some "Missing required field: peer_id" })

/-- Python f-string rendering of the optional method field. -/
def pyShow : Option String → String
  | none => "None"
  | some s => s

/-- What `ChatServer.handle_client` receives on one connection: either
bytes that fail to decode as JSON, or a decoded request object. -/
inductive Input where
  | badJSON : Input
  | good : Request → Input
deriving Repr, DecidableEq

/-- `ChatServer.handle_client`: route a decoded request to its handler, or
answer an error for unknown methods and undecodable JSON. -/
def handle_client (now : Nat) (s : ServerState) (i : Input) :
    ServerState × Response :=
  match i with
  | .badJSON => (s, { status := .error, message := some "Invalid JSON" })
  | .good req =>
    if req.method == some "register" then register_peer now s req
    else if req.method == some "get_peers" then get_peer_list s req
    else if req.method == some "join_channel" then join_channel s req
    else if req.method == some "leave_channel" then leave_channel s req
    else if req.method == some "get_channels" then get_channels s req
    else if req.method == some "logout" then logout_peer s req
    else (s, { status := .error,
               message := some ("Unknown method: " ++ pyShow req.method) })

/-! Peer client side (peer_client.py). The Connection Table
`self.connections` maps peer_id to the socket and remote username; the
socket itself is abstracted away, and the outcome of a write on each
connection is supplied by a failure oracle `fails : String → Bool`. -/

/-- A PeerClient state: identity, Connection Table (peer_id mapped to the
remote username), joined channels, and the current channel context. -/
structure ClientState where
  peer_id : String
  username : String
  connections : List (String × String)
  channels : List String
  current_channel : Option String
deriving Repr, DecidableEq

/-- The chat payload built by `PeerClient.send_message`. -/
structure ChatMessage where
  type : String
  channel : String
  peer_id : String
  username : String
  content : String
deriving Repr, DecidableEq

/-- One iteration of the send loop over the snapshot of the Connection
Table: a failing write deletes that entry from the table, a successful
write records the recipient. -/
def send_step (fails : String → Bool)
    (acc : List (String × String) × List String) (e : String × String) :
    List (String × String) × List String :=
  if fails e.1 then (dictErase e.1 acc.1, acc.2) else (acc.1, acc.2 ++ [e.1])

/-- `PeerClient.send_message`: build the chat message and write it to
every connection in a snapshot of the table, deleting the entries whose
write fails. Returns the new state, the message built, and the list of
peer_ids the message was delivered to, in order. -/
def send_message (fails : String → Bool) (st : ClientState)
    (channel content : String) : ClientState × ChatMessage × List String :=
  let message : ChatMessage :=
    { type := "chat", channel := channel, peer_id := st.peer_id,
      username := st.username, content := content }
  let result := st.connections.foldl (send_step fails) (st.connections, [])
  ({ st with connections := result.1 }, message, result.2)

/-- A decoded incoming peer-to-peer message, fields optional. -/
structure Incoming where
  type : Option String := none
  channel : Option String := none
  username : Option String := none
  content : Option String := none
deriving Repr, DecidableEq

/-- Console output produced while handling an incoming message: the chat
line itself, or the re-printed input prompt. -/
inductive DisplayEvent where
  | chatLine (sender channel content : String) : DisplayEvent
  | promptLine (username channel : String) : DisplayEvent
deriving Repr, DecidableEq

/-- `PeerClient.handle_incoming_message`: a message whose type field is
"chat" prints the chat line, then re-prints the input prompt when the
message channel equals the current channel; any other type produces no
output. The client state is not modified by this handler. -/
def handle_incoming_message (st : ClientState) (peer_id : String)
    (msg : Incoming) : List DisplayEvent :=
  if msg.type == some "chat" then
    let channel := msg.channel.getD "unknown"
    let sender := msg.username.getD peer_id
    let content := msg.content.getD ""
    DisplayEvent.chatLine sender channel content ::
      (if st.current_channel == some channel then
        [DisplayEvent.promptLine st.username channel]
      else [])
  else
    []

/-! Well-formedness predicates on tracker states. Every state a running
ChatServer can reach satisfies them: dict keys are unique in Python, and
channel member lists never acquire duplicates because join_channel guards
the append. -/

/-- Registry keys are distinct (true of every Python dict). -/
def PeersNodup (s : ServerState) : Prop :=
  (keys s.peers).Nodup

/-- Every channel member list is duplicate-free. -/
def MembersNodup (s : ServerState) : Prop :=
  ∀ e ∈ s.channels, e.2.Nodup

/-- Every channel present in the ChannelIndex has a non-empty member
list. -/
def NonEmptyChannels (s : ServerState) : Prop :=
  ∀ e ∈ s.channels, e.2 ≠ []

/-- The join_channel request with the given peer_id and channel. -/
def joinReq (p c : String) : Request :=
  { method := some "join_channel", peer_id := some p, channel := some c }

/-- The logout request with the given peer_id. -/
def logoutReq (p : String) : Request :=
  { method := some "logout", peer_id := some p }

/-- The get_channels request with the given peer_id. -/
def getChannelsReq (p : String) : Request :=
  { method := some "get_channels", peer_id := some p }

/-- The register request with the given fields. -/
def registerReq (p ip : String) (port : Nat) (u : String) : Request :=
  { method := some "register", peer_id := some p, ip := some ip,
    port := some port, username := some u }

/-- The get_peers request naming a channel. -/
def getPeersReq (c : String) : Request :=
  { method := some "get_peers", channel := some c }

/-- A sample PeerRecord, used to instantiate universally quantified
results at concrete states. -/
def sampleRecord : PeerRecord :=
  { ip := "127.0.0.1", port := 9001, username := "Alice", timestamp := 0 }

/-- A second sample PeerRecord. -/
def sampleRecord2 : PeerRecord :=
  { ip := "127.0.0.1", port := 9002, username := "Bob", timestamp := 0 }

/-- A tracker state with one registered peer and no channels. -/
def sampleState1 : ServerState :=
  { peers := [("p1", sampleRecord)], channels := [] }

/-- A tracker state with two registered peers, both members of the
channel general. -/
def sampleState2 : ServerState :=
  { peers := [("p1", sampleRecord), ("p2", sampleRecord2)],
    channels := [("general", ["p1", "p2"])] }

/-- A tracker state where p1 is a member of channels a and b, and b
contains only p1. -/
def sampleState3 : ServerState :=
  { peers := [("p1", sampleRecord), ("p2", sampleRecord2)],
    channels := [("a", ["p1", "p2"]), ("b", ["p1"])] }

/-- A sample peer client state with three live connections and the
current channel general. -/
def sampleClient : ClientState :=
  { peer_id := "me", username := "Alice",
    connections := [("a", "A"), ("bad", "B"), ("c", "C")],
    channels := ["general"], current_channel := some "general" }

/-! Basic dictionary lemmas. -/

theorem dictLookup_dictInsert_self {α : Type} (k : String) (v : α)
    (l : List (String × α)) : dictLookup k (dictInsert k v l) = some v := by
  induction l with
  | nil => simp [dictInsert, dictLookup]
  | cons e rest ih =>
    by_cases h : e.1 = k
    · simp [dictInsert, dictLookup, h]
    · simp [dictInsert, dictLookup, h, ih]

theorem dictGetD_dictInsert_self {α : Type} (k : String) (v : α)
    (l : List (String × α)) (d : α) : dictGetD k (dictInsert k v l) d = v := by
  simp [dictGetD, dictLookup_dictInsert_self]

theorem dictInsert_idem {α : Type} (k : String) (v : α)
    (l : List (String × α)) :
    dictInsert k v (dictInsert k v l) = dictInsert k v l := by
  induction l with
  | nil => simp [dictInsert]
  | cons e rest ih =>
    by_cases h : e.1 = k
    · simp [dictInsert, h]
    · simp [dictInsert, h, ih]

theorem mem_dictInsert {α : Type} {k : String} {v : α}
    {l : List (String × α)} {e : String × α} (h : e ∈ dictInsert k v l) :
    e = (k, v) ∨ e ∈ l := by
  induction l with
  | nil => simpa [dictInsert] using h
  | cons f rest ih =>
    by_cases hf : f.1 = k
    · simp only [dictInsert, hf, beq_self_eq_true, if_true, List.mem_cons] at h
      rcases h with h | h
      · exact Or.inl h
      · exact Or.inr (List.mem_cons_of_mem _ h)
    · simp only [dictInsert, beq_iff_eq, hf, if_false, List.mem_cons] at h
      rcases h with h | h
      · exact Or.inr (by simp [h])
      · rcases ih h with h2 | h2
        · exact Or.inl h2
        · exact Or.inr (List.mem_cons_of_mem _ h2)

theorem mem_dictErase {α : Type} {k : String} {l : List (String × α)}
    {e : String × α} (h : e ∈ dictErase k l) : e ∈ l := by
  induction l with
  | nil => simp [dictErase] at h
  | cons f rest ih =>
    by_cases hf : f.1 = k
    · simp only [dictErase, hf, beq_self_eq_true, if_true] at h
      exact List.mem_cons_of_mem _ h
    · simp only [dictErase, beq_iff_eq, hf, if_false, List.mem_cons] at h
      rcases h with h | h
      · simp [h]
      · exact List.mem_cons_of_mem _ (ih h)

theorem containsKey_dictInsert_self {α : Type} (k : String) (v : α)
    (l : List (String × α)) : containsKey k (dictInsert k v l) = true := by
  simp [containsKey, dictLookup_dictInsert_self]

theorem keys_dictInsert_of_containsKey {α : Type} {k : String}
    {l : List (String × α)} (h : containsKey k l = true) (v : α) :
    keys (dictInsert k v l) = keys l := by
  induction l with
  | nil => simp [containsKey, dictLookup] at h
  | cons e rest ih =>
    by_cases he : e.1 = k
    · simp [dictInsert, keys, he]
    · simp only [containsKey, dictLookup, beq_iff_eq, he, if_false] at h
      have ihh := ih h
      simp only [keys, List.map_cons] at ihh ⊢
      simp [dictInsert, he, ihh]

theorem nodup_keys_dictInsert {α : Type} {k : String} {v : α}
    {l : List (String × α)} (h : (keys l).Nodup) :
    (keys (dictInsert k v l)).Nodup := by
  induction l with
  | nil => simp [dictInsert, keys]
  | cons e rest ih =>
    simp only [keys, List.map_cons, List.nodup_cons] at h
    by_cases he : e.1 = k
    · simp only [dictInsert, he, beq_self_eq_true, if_true, keys, List.map_cons,
        List.nodup_cons]
      exact ⟨he ▸ h.1, h.2⟩
    · simp only [dictInsert, beq_iff_eq, he, if_false, keys, List.map_cons,
        List.nodup_cons]
      refine ⟨fun hc => ?_, ih h.2⟩
      rcases List.mem_map.mp hc with ⟨f, hf, hfk⟩
      rcases mem_dictInsert hf with rfl | hfl
      · exact he hfk.symm
      · exact h.1 (List.mem_map.mpr ⟨f, hfl, hfk⟩)

theorem nodup_keys_dictErase {α : Type} {k : String}
    {l : List (String × α)} (h : (keys l).Nodup) :
    (keys (dictErase k l)).Nodup := by
  induction l with
  | nil => simp [dictErase, keys]
  | cons e rest ih =>
    simp only [keys, List.map_cons, List.nodup_cons] at h
    by_cases he : e.1 = k
    · simpa [dictErase, he, keys] using h.2
    · simp only [dictErase, beq_iff_eq, he, if_false, keys, List.map_cons,
        List.nodup_cons]
      refine ⟨fun hc => ?_, ih h.2⟩
      rcases List.mem_map.mp hc with ⟨f, hf, hfk⟩
      exact h.1 (List.mem_map.mpr ⟨f, mem_dictErase hf, hfk⟩)

theorem dictLookup_eq_none_of_not_mem_keys {α : Type} {k : String}
    {l : List (String × α)} (h : k ∉ keys l) : dictLookup k l = none := by
  induction l with
  | nil => simp [dictLookup]
  | cons e rest ih =>
    simp only [keys, List.map_cons, List.mem_cons, not_or] at h
    simp only [dictLookup, beq_iff_eq]
    rw [if_neg (fun he => h.1 he.symm)]
    exact ih h.2

theorem dictLookup_dictErase_self {α : Type} {k : String}
    {l : List (String × α)} (h : (keys l).Nodup) :
    dictLookup k (dictErase k l) = none := by
  induction l with
  | nil => simp [dictErase, dictLookup]
  | cons e rest ih =>
    simp only [keys, List.map_cons, List.nodup_cons] at h
    by_cases he : e.1 = k
    · simp only [dictErase, he, beq_self_eq_true, if_true]
      exact dictLookup_eq_none_of_not_mem_keys (he ▸ h.1)
    · simp only [dictErase, dictLookup, beq_iff_eq, he, if_false]
      exact ih h.2

theorem dictInsert_of_not_containsKey {α : Type} {k : String}
    {l : List (String × α)} (h : containsKey k l = false) (v : α) :
    dictInsert k v l = l ++ [(k, v)] := by
  induction l with
  | nil => simp [dictInsert]
  | cons e rest ih =>
    simp only [containsKey, dictLookup, beq_iff_eq] at h
    by_cases he : e.1 = k
    · simp [he] at h
    · simp only [dictInsert, beq_iff_eq, he, if_false, List.cons_append,
        List.cons.injEq, true_and]
      rw [if_neg he] at h
      exact ih h

theorem containsKey_of_mem {α : Type} {e : String × α}
    {l : List (String × α)} (h : e ∈ l) : containsKey e.1 l = true := by
  induction l with
  | nil => cases h
  | cons f rest ih =>
    rcases List.mem_cons.mp h with rfl | hr
    · simp [containsKey, dictLookup]
    · by_cases hf : f.1 = e.1
      · simp [containsKey, dictLookup, hf]
      · simp only [containsKey, dictLookup, beq_iff_eq, hf, if_false]
        exact ih hr

theorem containsKey_singleton {α : Type} (k k2 : String) (v : α)
    (h : k ≠ k2) : containsKey k [(k2, v)] = false := by
  simp [containsKey, dictLookup, Ne.symm h]

theorem containsKey_append {α : Type} (k : String)
    (l1 l2 : List (String × α)) :
    containsKey k (l1 ++ l2) = (containsKey k l1 || containsKey k l2) := by
  induction l1 with
  | nil => simp [containsKey, dictLookup]
  | cons e rest ih =>
    by_cases he : e.1 = k
    · simp [containsKey, dictLookup, he]
    · simp only [List.cons_append, containsKey, dictLookup, beq_iff_eq, he,
        if_false] at ih ⊢
      exact ih

theorem dictComp_go (peers : List (String × PeerRecord)) :
    ∀ (pids : List String) (acc : List (String × PeerRecord)),
    pids.Nodup → (∀ p ∈ pids, containsKey p acc = false) →
    pids.foldl (fun acc pid =>
      match dictLookup pid peers with
      | some r => dictInsert pid r acc
      | none => acc) acc
    = acc ++ pids.filterMap
        (fun pid => (dictLookup pid peers).map (fun r => (pid, r))) := by
  intro pids
  induction pids with
  | nil => intro acc _ _; simp
  | cons pid rest ih =>
    intro acc hnd hfresh
    simp only [List.foldl_cons, List.filterMap_cons]
    cases hl : dictLookup pid peers with
    | none =>
      simp only [hl]
      exact ih acc (List.nodup_cons.mp hnd).2
        (fun p hp => hfresh p (List.mem_cons_of_mem _ hp))
    | some r =>
      simp only [hl, Option.map_some]
      rw [dictInsert_of_not_containsKey (hfresh pid (List.mem_cons_self _ _)) r]
      rw [ih (acc ++ [(pid, r)]) (List.nodup_cons.mp hnd).2]
      · simp
      · intro p hp
        rw [containsKey_append]
        have hne : p ≠ pid := fun hpe =>
          (List.nodup_cons.mp hnd).1 (hpe ▸ hp)
        simp [hfresh p (List.mem_cons_of_mem _ hp),
          containsKey_singleton p pid r hne]

theorem dictComp_eq_filterMap (peers : List (String × PeerRecord))
    (pids : List String) (h : pids.Nodup) :
    dictComp peers pids = pids.filterMap
      (fun pid => (dictLookup pid peers).map (fun r => (pid, r))) := by
  have := dictComp_go peers pids [] h (by intro p _; simp [containsKey, dictLookup])
  simpa [dictComp] using this

theorem dictComp_keys_nodup (peers : List (String × PeerRecord))
    (pids : List String) : (keys (dictComp peers pids)).Nodup := by
  have go : ∀ (l : List String) (acc : List (String × PeerRecord)),
      (keys acc).Nodup →
      (keys (l.foldl (fun acc pid =>
        match dictLookup pid peers with
        | some r => dictInsert pid r acc
        | none => acc) acc)).Nodup := by
    intro l
    induction l with
    | nil => intro acc h; simpa using h
    | cons pid rest ih =>
      intro acc h
      simp only [List.foldl_cons]
      cases hl : dictLookup pid peers with
      | none => simpa [hl] using ih acc h
      | some r => simpa [hl] using ih _ (nodup_keys_dictInsert h)
  exact go pids [] (by simp [keys])

theorem joinMembers_contains (pid : String) (cur : List String) :
    (joinMembers pid cur).contains pid = true := by
  by_cases hm : pid ∈ cur
  · simp [joinMembers, hm, List.elem_iff]
  · simp [joinMembers, hm, List.elem_iff]

theorem joinMembers_idem (pid : String) (cur : List String) :
    joinMembers pid (joinMembers pid cur) = joinMembers pid cur := by
  by_cases hm : pid ∈ cur
  · simp [joinMembers, hm, List.elem_iff]
  · simp [joinMembers, hm, List.elem_iff]

theorem joinMembers_ne_nil (pid : String) (cur : List String) :
    joinMembers pid cur ≠ [] := by
  by_cases hm : pid ∈ cur
  · simpa [joinMembers, hm, List.elem_iff] using List.ne_nil_of_mem hm
  · simp [joinMembers, hm, List.elem_iff]

/-! Branch equations for the tracker handlers. -/

theorem get_peer_list_state (s : ServerState) (req : Request) :
    (get_peer_list s req).1 = s := rfl

theorem get_channels_state (s : ServerState) (req : Request) :
    (get_channels s req).1 = s := by
  unfold get_channels
  split <;> rfl

theorem get_peer_list_fallback (s : ServerState) (req : Request) (c : String)
    (hc : req.channel = some c) (habs : containsKey c s.channels = false) :
    get_peer_list s req =
      (s, { status := .success, peers := some s.peers,
            channel := some (some c), count := some s.peers.length }) := by
  simp [get_peer_list, hc, habs]

theorem get_peer_list_no_channel (s : ServerState) (req : Request)
    (hc : req.channel = none) :
    get_peer_list s req =
      (s, { status := .success, peers := some s.peers,
            channel := some none, count := some s.peers.length }) := by
  simp [get_peer_list, hc, truthyS]

theorem get_peer_list_members (s : ServerState) (req : Request) (c : String)
    (ms : List String) (hc : req.channel = some c) (hne : c ≠ "")
    (hms : dictLookup c s.channels = some ms) :
    get_peer_list s req =
      (s, { status := .success, peers := some (dictComp s.peers ms),
            channel := some (some c),
            count := some (dictComp s.peers ms).length }) := by
  simp [get_peer_list, hc, truthyS, hne, containsKey, hms, dictGetD]

theorem register_peer_valid (now : Nat) (s : ServerState) (req : Request)
    (h : (truthyS req.peer_id && truthyS req.ip && truthyN req.port) = true) :
    register_peer now s req =
      ({ s with peers := (dictInsert (req.peer_id.getD "")
          (PeerRecord.mk (req.ip.getD "") (req.port.getD 0)
            (req.username.getD "Anonymous") now) s.peers) },
       { status := .success, message := some "Peer registered successfully",
         peer_id := some (req.peer_id.getD ""),
         username := some (req.username.getD "Anonymous") }) := by
  simp [register_peer, h]

theorem register_peer_missing (now : Nat) (s : ServerState) (req : Request)
    (h : (truthyS req.peer_id && truthyS req.ip && truthyN req.port) = false) :
    register_peer now s req =
      (s, { status := .error,
            message := some "Missing required fields: peer_id, ip, port" }) := by
  simp [register_peer, h]

theorem join_channel_valid (s : ServerState) (req : Request)
    (h : (truthyS req.peer_id && truthyS req.channel) = true) :
    join_channel s req =
      ({ s with channels := (dictInsert (req.channel.getD "")
          (joinMembers (req.peer_id.getD "")
            (dictGetD (req.channel.getD "") s.channels [])) s.channels) },
       { status := .success,
         message := some ("Joined channel: " ++ req.channel.getD ""),
         channel := some (some (req.channel.getD "")) }) := by
  simp [join_channel, h]

theorem join_channel_missing (s : ServerState) (req : Request)
    (h : (truthyS req.peer_id && truthyS req.channel) = false) :
    join_channel s req =
      (s, { status := .error,
            message := some "Missing required fields: peer_id, channel" }) := by
  simp [join_channel, h]

theorem logout_peer_valid (s : ServerState) (req : Request)
    (h : truthyS req.peer_id = true) :
    logout_peer s req =
      ({ peers := dictErase (req.peer_id.getD "") s.peers,
         channels := s.channels.filterMap (fun e =>
           let remaining := if e.2.contains (req.peer_id.getD "")
             then e.2.erase (req.peer_id.getD "") else e.2
           if remaining.isEmpty then none else some (e.1, remaining)) },
       { status := .success, message := some "Logged out successfully" }) := by
  simp [logout_peer, h]

theorem logout_peer_missing (s : ServerState) (req : Request)
    (h : truthyS req.peer_id = false) :
    logout_peer s req =
      (s, { status := .error,
            message := some "Missing required field: peer_id" }) := by
  simp [logout_peer, h]

theorem get_channels_valid (s : ServerState) (req : Request)
    (h : truthyS req.peer_id = true) :
    get_channels s req =
      (s, { status := .success,
            channels := some ((s.channels.filter
              (fun e => e.2.contains (req.peer_id.getD ""))).map Prod.fst),
            count := some ((s.channels.filter
              (fun e => e.2.contains (req.peer_id.getD ""))).map Prod.fst).length }) := by
  simp [get_channels, h]

/-! Per-handler lemmas: an error response leaves the state untouched. -/

theorem register_peer_error_state (now : Nat) (s : ServerState) (req : Request) :
    (register_peer now s req).2.status = Status.error →
    (register_peer now s req).1 = s := by
  cases h : (truthyS req.peer_id && truthyS req.ip && truthyN req.port) with
  | true => rw [register_peer_valid now s req h]; intro hs; simp at hs
  | false => rw [register_peer_missing now s req h]; intro _; rfl

theorem join_channel_error_state (s : ServerState) (req : Request) :
    (join_channel s req).2.status = Status.error →
    (join_channel s req).1 = s := by
  cases h : (truthyS req.peer_id && truthyS req.channel) with
  | true => rw [join_channel_valid s req h]; intro hs; simp at hs
  | false => rw [join_channel_missing s req h]; intro _; rfl

theorem leave_channel_error_state (s : ServerState) (req : Request) :
    (leave_channel s req).2.status = Status.error →
    (leave_channel s req).1 = s := by
  cases h : (truthyS req.peer_id && truthyS req.channel) with
  | true => intro hs; simp [leave_channel, h] at hs
  | false => intro _; simp [leave_channel, h]

theorem get_channels_error_state (s : ServerState) (req : Request) :
    (get_channels s req).2.status = Status.error →
    (get_channels s req).1 = s :=
  fun _ => get_channels_state s req

theorem logout_peer_error_state (s : ServerState) (req : Request) :
    (logout_peer s req).2.status = Status.error →
    (logout_peer s req).1 = s := by
  cases h : truthyS req.peer_id with
  | true => rw [logout_peer_valid s req h]; intro hs; simp at hs
  | false => rw [logout_peer_missing s req h]; intro _; rfl

/-- Idempotence of join_channel for an arbitrary request. -/
theorem join_channel_idem_general (s : ServerState) (req : Request) :
    (join_channel (join_channel s req).1 req).1 = (join_channel s req).1 := by
  cases h : (truthyS req.peer_id && truthyS req.channel) with
  | false => simp only [join_channel_missing _ req h]
  | true =>
    simp only [join_channel_valid, h, dictGetD_dictInsert_self,
      joinMembers_idem, dictInsert_idem]

theorem get_channels_missing (s : ServerState) (req : Request)
    (h : truthyS req.peer_id = false) :
    get_channels s req =
      (s, { status := .error,
            message := some "Missing required field: peer_id" }) := by
  simp [get_channels, h]

/-! Preservation of the non-empty-channels invariant. -/

theorem NEC_register (now : Nat) (s : ServerState) (req : Request)
    (h : NonEmptyChannels s) : NonEmptyChannels (register_peer now s req).1 := by
  cases hc : (truthyS req.peer_id && truthyS req.ip && truthyN req.port) with
  | true => rw [register_peer_valid now s req hc]; exact h
  | false => rw [register_peer_missing now s req hc]; exact h

theorem NEC_join (s : ServerState) (req : Request)
    (h : NonEmptyChannels s) : NonEmptyChannels (join_channel s req).1 := by
  cases hc : (truthyS req.peer_id && truthyS req.channel) with
  | false => rw [join_channel_missing s req hc]; exact h
  | true =>
    rw [join_channel_valid s req hc]
    intro e he
    rcases mem_dictInsert he with rfl | hmem
    · exact joinMembers_ne_nil _ _
    · exact h e hmem

theorem NEC_leave (s : ServerState) (req : Request)
    (h : NonEmptyChannels s) : NonEmptyChannels (leave_channel s req).1 := by
  cases hc : (truthyS req.peer_id && truthyS req.channel) with
  | false =>
    intro e he
    simp only [leave_channel, hc, Bool.false_eq_true, if_false] at he
    exact h e he
  | true =>
    intro e he
    simp only [leave_channel, hc, if_true] at he
    split at he
    · split at he
      · split at he
        · exact h e (mem_dictErase he)
        · rcases mem_dictInsert he with rfl | hmem
          · rename_i hemp
            simpa [List.isEmpty_iff] using hemp
          · exact h e hmem
      · exact h e he
    · exact h e he

theorem NEC_logout (s : ServerState) (req : Request)
    (h : NonEmptyChannels s) : NonEmptyChannels (logout_peer s req).1 := by
  cases hc : truthyS req.peer_id with
  | false => rw [logout_peer_missing s req hc]; exact h
  | true =>
    rw [logout_peer_valid s req hc]
    intro e he
    simp only [List.mem_filterMap] at he
    rcases he with ⟨a, _, hfa⟩
    split at hfa
    · split at hfa
      · simp at hfa
      · cases hfa
        rename_i hemp
        simpa [List.isEmpty_iff] using hemp
    · split at hfa
      · simp at hfa
      · cases hfa
        rename_i hemp
        simpa [List.isEmpty_iff] using hemp

theorem NEC_step (now : Nat) (s : ServerState) (i : Input)
    (h : NonEmptyChannels s) : NonEmptyChannels (handle_client now s i).1 := by
  cases i with
  | badJSON => exact h
  | good req =>
    simp only [handle_client]
    split
    · exact NEC_register now s req h
    · split
      · exact h
      · split
        · exact NEC_join s req h
        · split
          · exact NEC_leave s req h
          · split
            · rw [get_channels_state]; exact h
            · split
              · exact NEC_logout s req h
              · exact h

/-! Preservation of duplicate-free Registry keys, and duplicate-freedom
of every peers map a response can carry. -/

theorem join_channel_peers (s : ServerState) (req : Request) :
    (join_channel s req).1.peers = s.peers := by
  cases hc : (truthyS req.peer_id && truthyS req.channel) with
  | true => rw [join_channel_valid s req hc]
  | false => rw [join_channel_missing s req hc]

theorem leave_channel_peers (s : ServerState) (req : Request) :
    (leave_channel s req).1.peers = s.peers := by
  cases hc : (truthyS req.peer_id && truthyS req.channel) with
  | true => simp [leave_channel, hc]
  | false => simp [leave_channel, hc]

theorem peersNodup_step (now : Nat) (s : ServerState) (i : Input)
    (h : PeersNodup s) : PeersNodup (handle_client now s i).1 := by
  cases i with
  | badJSON => exact h
  | good req =>
    simp only [handle_client]
    split
    · cases hc : (truthyS req.peer_id && truthyS req.ip && truthyN req.port) with
      | true =>
        rw [register_peer_valid now s req hc]
        exact nodup_keys_dictInsert h
      | false => rw [register_peer_missing now s req hc]; exact h
    · split
      · exact h
      · split
        · show (keys (join_channel s req).1.peers).Nodup
          rw [join_channel_peers]
          exact h
        · split
          · show (keys (leave_channel s req).1.peers).Nodup
            rw [leave_channel_peers]
            exact h
          · split
            · rw [get_channels_state]; exact h
            · split
              · cases hc : truthyS req.peer_id with
                | true =>
                  rw [logout_peer_valid s req hc]
                  exact nodup_keys_dictErase h
                | false => rw [logout_peer_missing s req hc]; exact h
              · exact h

theorem get_peer_list_peers_nodup (s : ServerState) (req : Request)
    (h : PeersNodup s) :
    ∀ pl, (get_peer_list s req).2.peers = some pl → (keys pl).Nodup := by
  intro pl hpl
  simp only [get_peer_list] at hpl
  cases hpl
  split
  · exact dictComp_keys_nodup _ _
  · exact h

theorem handle_client_peers_nodup (now : Nat) (s : ServerState) (i : Input)
    (h : PeersNodup s) :
    ∀ pl, (handle_client now s i).2.peers = some pl → (keys pl).Nodup := by
  intro pl
  cases i with
  | badJSON => intro hpl; cases hpl
  | good req =>
    simp only [handle_client]
    split
    · intro hpl
      rcases Bool.eq_false_or_eq_true
        (truthyS req.peer_id && truthyS req.ip && truthyN req.port) with hc | hc
      · rw [register_peer_valid now s req hc] at hpl; cases hpl
      · rw [register_peer_missing now s req hc] at hpl; cases hpl
    · split
      · exact get_peer_list_peers_nodup s req h pl
      · split
        · intro hpl
          rcases Bool.eq_false_or_eq_true
            (truthyS req.peer_id && truthyS req.channel) with hc | hc
          · rw [join_channel_valid s req hc] at hpl; cases hpl
          · rw [join_channel_missing s req hc] at hpl; cases hpl
        · split
          · intro hpl
            rcases Bool.eq_false_or_eq_true
              (truthyS req.peer_id && truthyS req.channel) with hc | hc
            · simp [leave_channel, hc] at hpl
            · simp [leave_channel, hc] at hpl
          · split
            · intro hpl
              rcases Bool.eq_false_or_eq_true (truthyS req.peer_id) with hc | hc
              · rw [get_channels_valid s req hc] at hpl; cases hpl
              · rw [get_channels_missing s req hc] at hpl; cases hpl
            · split
              · intro hpl
                rcases Bool.eq_false_or_eq_true (truthyS req.peer_id) with hc | hc
                · rw [logout_peer_valid s req hc] at hpl; cases hpl
                · rw [logout_peer_missing s req hc] at hpl; cases hpl
              · intro hpl; cases hpl

/-! The send loop of the peer client. -/

theorem dictErase_eq_filter {α : Type} {t : List (String × α)}
    (ht : (keys t).Nodup) (k : String) :
    dictErase k t = t.filter (fun x => !(x.1 == k)) := by
  induction t with
  | nil => rfl
  | cons e rest ih =>
    simp only [keys, List.map_cons, List.nodup_cons] at ht
    by_cases he : e.1 = k
    · subst he
      simp only [dictErase, beq_self_eq_true, if_true, List.filter_cons,
        Bool.not_true, if_false]
      symm
      apply List.filter_eq_self.mpr
      intro a ha
      have hne : a.1 ≠ e.1 := fun h2 => ht.1 (List.mem_map.mpr ⟨a, ha, h2⟩)
      simp [hne]
    · simp only [dictErase, beq_iff_eq, he, if_false, List.filter_cons]
      rw [ih ht.2]
      simp [he]

theorem keys_filter_nodup {α : Type} {t : List (String × α)}
    (ht : (keys t).Nodup) (p : String × α → Bool) :
    (keys (t.filter p)).Nodup :=
  ((List.filter_sublist t).map Prod.fst).nodup ht

theorem send_loop_spec (fails : String → Bool) :
    ∀ (todo acc : List (String × String)) (sent : List String),
    todo.foldl (send_step fails) (acc, sent) =
      (todo.foldl (fun t e => if fails e.1 then dictErase e.1 t else t) acc,
       sent ++ (todo.filter (fun e => !fails e.1)).map Prod.fst) := by
  intro todo
  induction todo with
  | nil => intro acc sent; simp
  | cons e rest ih =>
    intro acc sent
    simp only [List.foldl_cons, send_step, List.filter_cons]
    cases hf : fails e.1 with
    | true => simp [hf, ih]
    | false => simp [hf, ih]

theorem erase_fold_spec (fails : String → Bool) :
    ∀ (todo t : List (String × String)), (keys t).Nodup →
    todo.foldl (fun acc e => if fails e.1 then dictErase e.1 acc else acc) t =
      t.filter (fun x => !(fails x.1 && todo.any (fun y => y.1 == x.1))) := by
  intro todo
  induction todo with
  | nil => intro t _; simp
  | cons e rest ih =>
    intro t ht
    simp only [List.foldl_cons]
    cases hf : fails e.1 with
    | true =>
      rw [if_pos rfl, dictErase_eq_filter ht e.1,
        ih _ (keys_filter_nodup ht _), List.filter_filter]
      apply List.filter_congr
      intro x _
      by_cases hx : x.1 = e.1
      · simp [hx, hf]
      · have hbx : (x.1 == e.1) = false := beq_eq_false_iff_ne.mpr hx
        have hbe : (e.1 == x.1) = false := beq_eq_false_iff_ne.mpr (Ne.symm hx)
        simp [hbx, hbe]
    | false =>
      rw [if_neg (by simp [hf]), ih t ht]
      apply List.filter_congr
      intro x _
      by_cases hx : x.1 = e.1
      · simp [hx, hf]
      · have hbe : (e.1 == x.1) = false := beq_eq_false_iff_ne.mpr (Ne.symm hx)
        simp [hbe]

/-! Claim theorems. -/

/-- C1 counterexample: in a tracker state with one registered peer and no
channels, a get_peers request for the absent channel nope answers with a
success whose peers map is the full, non-empty Registry — refuting the
claim that the peers map is empty. -/
theorem get_peers_absent_channel_cex :
    (get_peer_list sampleState1 (getPeersReq "nope")).2.status = Status.success ∧
    (get_peer_list sampleState1 (getPeersReq "nope")).2.peers ≠ some [] := by
  constructor
  · rfl
  · decide

/-- C1 (amended): for every tracker state and every get_peers request
naming a channel that is not present in the ChannelIndex, the response is
a success whose peers map is the whole Registry (empty only when the
Registry is empty), not an error. -/
theorem get_peers_absent_channel_returns_all (s : ServerState)
    (req : Request) (c : String) (hc : req.channel = some c)
    (habs : containsKey c s.channels = false) :
    (get_peer_list s req).2.status = Status.success ∧
    (get_peer_list s req).2.peers = some s.peers ∧
    (get_peer_list s req).2.count = some s.peers.length := by
  rw [get_peer_list_fallback s req c hc habs]
  exact ⟨rfl, rfl, rfl⟩

/-- Witness for the amended C1 at a concrete state and request. -/
theorem get_peers_absent_channel_returns_all_witness :
    (getPeersReq "nope").channel = some "nope" ∧
    containsKey "nope" sampleState1.channels = false ∧
    ((get_peer_list sampleState1 (getPeersReq "nope")).2.status = Status.success ∧
     (get_peer_list sampleState1 (getPeersReq "nope")).2.peers = some sampleState1.peers ∧
     (get_peer_list sampleState1 (getPeersReq "nope")).2.count = some sampleState1.peers.length) :=
  ⟨rfl, rfl,
    get_peers_absent_channel_returns_all sampleState1 (getPeersReq "nope") "nope" rfl rfl⟩

/-- C2: get_peers with a channel present in the ChannelIndex returns
exactly the records of its members that are still in the Registry; with
no channel field, or with an absent channel, it returns all Registry
records; the count field always equals the number of returned records. -/
theorem get_peers_channel_filtering (s : ServerState) (req : Request) :
    (∀ c ms, req.channel = some c → c ≠ "" →
      dictLookup c s.channels = some ms → ms.Nodup →
      (get_peer_list s req).2.status = Status.success ∧
      (get_peer_list s req).2.peers = some (ms.filterMap
        (fun pid => (dictLookup pid s.peers).map (fun r => (pid, r)))) ∧
      (get_peer_list s req).2.count = some (ms.filterMap
        (fun pid => (dictLookup pid s.peers).map (fun r => (pid, r)))).length) ∧
    (req.channel = none →
      (get_peer_list s req).2.status = Status.success ∧
      (get_peer_list s req).2.peers = some s.peers ∧
      (get_peer_list s req).2.count = some s.peers.length) ∧
    (∀ c, req.channel = some c → dictLookup c s.channels = none →
      (get_peer_list s req).2.status = Status.success ∧
      (get_peer_list s req).2.peers = some s.peers ∧
      (get_peer_list s req).2.count = some s.peers.length) := by
  refine ⟨?_, ?_, ?_⟩
  · intro c ms hc hne hms hnd
    rw [get_peer_list_members s req c ms hc hne hms,
      dictComp_eq_filterMap s.peers ms hnd]
    exact ⟨rfl, rfl, rfl⟩
  · intro hc
    rw [get_peer_list_no_channel s req hc]
    exact ⟨rfl, rfl, rfl⟩
  · intro c hc habs
    rw [get_peer_list_fallback s req c hc (by simp [containsKey, habs])]
    exact ⟨rfl, rfl, rfl⟩

/-- Witness for C2 at a concrete two-peer state with channel general. -/
theorem get_peers_channel_filtering_witness :
    ((getPeersReq "general").channel = some "general" ∧
     "general" ≠ "" ∧
     dictLookup "general" sampleState2.channels = some ["p1", "p2"] ∧
     (["p1", "p2"] : List String).Nodup) ∧
    ((get_peer_list sampleState2 (getPeersReq "general")).2.status = Status.success ∧
     (get_peer_list sampleState2 (getPeersReq "general")).2.peers =
       some ((["p1", "p2"] : List String).filterMap
         (fun pid => (dictLookup pid sampleState2.peers).map (fun r => (pid, r)))) ∧
     (get_peer_list sampleState2 (getPeersReq "general")).2.count =
       some ((["p1", "p2"] : List String).filterMap
         (fun pid => (dictLookup pid sampleState2.peers).map (fun r => (pid, r)))).length) :=
  ⟨⟨rfl, by decide, rfl, by decide⟩,
   (get_peers_channel_filtering sampleState2 (getPeersReq "general")).1
     "general" ["p1", "p2"] rfl (by decide) rfl (by decide)⟩

/-- C3: every tracker request answered with an error response — missing
required field, unknown method, or undecodable JSON — leaves the Registry
and the ChannelIndex exactly as they were: no request is partially
applied. -/
theorem tracker_error_no_mutation (now : Nat) (s : ServerState) (i : Input)
    (h : (handle_client now s i).2.status = Status.error) :
    (handle_client now s i).1 = s := by
  cases i with
  | badJSON => rfl
  | good req =>
    revert h
    simp only [handle_client]
    split
    · exact register_peer_error_state now s req
    · split
      · intro _; rfl
      · split
        · exact join_channel_error_state s req
        · split
          · exact leave_channel_error_state s req
          · split
            · exact get_channels_error_state s req
            · split
              · exact logout_peer_error_state s req
              · intro _; rfl

/-- Witness for C3 at a concrete state and an undecodable request. -/
theorem tracker_error_no_mutation_witness :
    (handle_client 0 sampleState1 Input.badJSON).2.status = Status.error ∧
    (handle_client 0 sampleState1 Input.badJSON).1 = sampleState1 :=
  ⟨rfl, tracker_error_no_mutation 0 sampleState1 Input.badJSON rfl⟩

/-- C4: join_channel is idempotent — for every tracker state, peer_id and
channel, applying the join request a second time leaves the tracker state
(and so the member set of the channel) exactly as after the first
application. -/
theorem join_channel_idempotent (s : ServerState) (p c : String) :
    (join_channel (join_channel s (joinReq p c)).1 (joinReq p c)).1 =
      (join_channel s (joinReq p c)).1 :=
  join_channel_idem_general s (joinReq p c)

/-- C5: every channel present in the ChannelIndex has a non-empty member
list, this invariant is preserved by every tracker request, and a channel
absent from the index is never mentioned again: get_channels only lists
channels present in the index, and get_peers for an absent channel falls
back to the whole Registry instead of reporting members for it. -/
theorem channels_never_empty (now : Nat) (s : ServerState) (i : Input)
    (p c : String) (chs : List String) (hnec : NonEmptyChannels s) :
    NonEmptyChannels (handle_client now s i).1 ∧
    ((get_channels s (getChannelsReq p)).2.channels = some chs → c ∈ chs →
      containsKey c s.channels = true) ∧
    (containsKey c s.channels = false →
      (get_peer_list s (getPeersReq c)).2.peers = some s.peers) := by
  refine ⟨NEC_step now s i hnec, ?_, ?_⟩
  · intro hchs hc
    by_cases hp : p = ""
    · rw [get_channels_missing s (getChannelsReq p)
        (by simp [getChannelsReq, truthyS, hp])] at hchs
      cases hchs
    · rw [get_channels_valid s (getChannelsReq p)
        (by simp [getChannelsReq, truthyS, hp])] at hchs
      cases hchs
      rcases List.mem_map.mp hc with ⟨e, he, rfl⟩
      exact containsKey_of_mem (List.mem_filter.mp he).1
  · intro habs
    rw [get_peer_list_fallback s (getPeersReq c) c rfl habs]

/-- C6: registering a peer_id a second time with different ip, port and
username overwrites the single PeerRecord in place — the stored record
holds the new fields and timestamp and the Registry key set is unchanged
— and along every sequence of tracker operations the Registry keys stay
duplicate-free, so a peers map returned by any response never holds two
records for the same peer_id. -/
theorem register_upsert (now1 now2 now : Nat) (s st : ServerState)
    (i : Input) (p ip1 ip2 u1 u2 : String) (port1 port2 : Nat)
    (pl : List (String × PeerRecord))
    (hp : p ≠ "") (hip1 : ip1 ≠ "") (hport1 : port1 ≠ 0)
    (hip2 : ip2 ≠ "") (hport2 : port2 ≠ 0) (hnd : PeersNodup st) :
    dictLookup p (register_peer now2
        (register_peer now1 s (registerReq p ip1 port1 u1)).1
        (registerReq p ip2 port2 u2)).1.peers =
      some (PeerRecord.mk ip2 port2 u2 now2) ∧
    keys (register_peer now2
        (register_peer now1 s (registerReq p ip1 port1 u1)).1
        (registerReq p ip2 port2 u2)).1.peers =
      keys (register_peer now1 s (registerReq p ip1 port1 u1)).1.peers ∧
    PeersNodup (handle_client now st i).1 ∧
    ((handle_client now st i).2.peers = some pl → (keys pl).Nodup) := by
  have ht1 : (truthyS (registerReq p ip1 port1 u1).peer_id &&
      truthyS (registerReq p ip1 port1 u1).ip &&
      truthyN (registerReq p ip1 port1 u1).port) = true := by
    simp [registerReq, truthyS, truthyN, hp, hip1, hport1]
  have ht2 : (truthyS (registerReq p ip2 port2 u2).peer_id &&
      truthyS (registerReq p ip2 port2 u2).ip &&
      truthyN (registerReq p ip2 port2 u2).port) = true := by
    simp [registerReq, truthyS, truthyN, hp, hip2, hport2]
  rw [register_peer_valid now1 s (registerReq p ip1 port1 u1) ht1,
    register_peer_valid now2 _ (registerReq p ip2 port2 u2) ht2]
  simp only [registerReq, Option.getD_some]
  refine ⟨dictLookup_dictInsert_self p _ _, ?_, peersNodup_step now st i hnd,
    handle_client_peers_nodup now st i hnd pl⟩
  exact keys_dictInsert_of_containsKey (containsKey_dictInsert_self p _ _) _

/-- Witness for C6 at concrete registrations and a concrete get_peers
request. -/
theorem register_upsert_witness :
    ("p1" ≠ "" ∧ "1.1.1.1" ≠ "" ∧ (1 : Nat) ≠ 0 ∧ "2.2.2.2" ≠ "" ∧
     (2 : Nat) ≠ 0 ∧ PeersNodup sampleState2) ∧
    (dictLookup "p1" (register_peer 1
        (register_peer 0 sampleState1 (registerReq "p1" "1.1.1.1" 1 "A")).1
        (registerReq "p1" "2.2.2.2" 2 "B")).1.peers =
      some (PeerRecord.mk "2.2.2.2" 2 "B" 1) ∧
     keys (register_peer 1
        (register_peer 0 sampleState1 (registerReq "p1" "1.1.1.1" 1 "A")).1
        (registerReq "p1" "2.2.2.2" 2 "B")).1.peers =
      keys (register_peer 0 sampleState1
        (registerReq "p1" "1.1.1.1" 1 "A")).1.peers ∧
     PeersNodup (handle_client 0 sampleState2
        (Input.good (getPeersReq "general"))).1 ∧
     ((handle_client 0 sampleState2 (Input.good (getPeersReq "general"))).2.peers =
        some [("p1", sampleRecord), ("p2", sampleRecord2)] →
      (keys [("p1", sampleRecord), ("p2", sampleRecord2)]).Nodup)) := by
  have hnd : PeersNodup sampleState2 := by
    unfold PeersNodup
    decide
  exact ⟨⟨by decide, by decide, by decide, by decide, by decide, hnd⟩,
    register_upsert 0 1 0 sampleState1 sampleState2
      (Input.good (getPeersReq "general")) "p1" "1.1.1.1" "2.2.2.2" "A" "B"
      1 2 [("p1", sampleRecord), ("p2", sampleRecord2)]
      (by decide) (by decide) (by decide) (by decide) (by decide) hnd⟩

/-- C7: logout removes the PeerRecord, removes the peer from every
channel member list (dropping any channel emptied by this), a subsequent
get_channels for that peer answers success with an empty list and count
0, and logout reports success even when the peer_id was never registered
(the success status holds for every state, registered or not). -/
theorem logout_cascade (s : ServerState) (p : String)
    (e : String × List String) (hp : p ≠ "") (hpeers : PeersNodup s)
    (hmem : MembersNodup s) :
    (logout_peer s (logoutReq p)).2.status = Status.success ∧
    dictLookup p (logout_peer s (logoutReq p)).1.peers = none ∧
    (e ∈ (logout_peer s (logoutReq p)).1.channels → p ∉ e.2) ∧
    (get_channels (logout_peer s (logoutReq p)).1
      (getChannelsReq p)).2.status = Status.success ∧
    (get_channels (logout_peer s (logoutReq p)).1
      (getChannelsReq p)).2.channels = some [] ∧
    (get_channels (logout_peer s (logoutReq p)).1
      (getChannelsReq p)).2.count = some 0 := by
  have htr : truthyS (logoutReq p).peer_id = true := by
    simp [logoutReq, truthyS, hp]
  have htr2 : truthyS (getChannelsReq p).peer_id = true := by
    simp [getChannelsReq, truthyS, hp]
  have hchan : ∀ a ∈ (logout_peer s (logoutReq p)).1.channels, p ∉ a.2 := by
    intro a ha
    rw [logout_peer_valid s (logoutReq p) htr] at ha
    simp only [logoutReq, Option.getD_some, List.mem_filterMap] at ha
    rcases ha with ⟨b, hb, hfb⟩
    split at hfb
    · split at hfb
      · simp at hfb
      · cases hfb
        exact (hmem b hb).not_mem_erase
    · split at hfb
      · simp at hfb
      · cases hfb
        rename_i hcon hemp
        intro hm
        exact hcon (List.elem_iff.mpr hm)
  have hfil : (logout_peer s (logoutReq p)).1.channels.filter
      (fun a => a.2.contains ((getChannelsReq p).peer_id.getD "")) = [] := by
    apply List.filter_eq_nil_iff.mpr
    intro a ha
    simp only [getChannelsReq, Option.getD_some]
    exact fun hcon => hchan a ha (List.elem_iff.mp hcon)
  refine ⟨by rw [logout_peer_valid s (logoutReq p) htr], ?_, hchan e, ?_, ?_, ?_⟩
  · rw [logout_peer_valid s (logoutReq p) htr]
    simp only [logoutReq, Option.getD_some]
    exact dictLookup_dictErase_self hpeers
  · rw [get_channels_valid _ _ htr2]
  · rw [get_channels_valid _ _ htr2]
    simp only [hfil, List.map_nil]
  · rw [get_channels_valid _ _ htr2]
    simp only [hfil, List.map_nil, List.length_nil]

/-- Witness for C7: logging p1 out of a state where p1 is in channels a
and b, and b holds only p1. -/
theorem logout_cascade_witness :
    ("p1" ≠ "" ∧ PeersNodup sampleState3 ∧ MembersNodup sampleState3) ∧
    ((logout_peer sampleState3 (logoutReq "p1")).2.status = Status.success ∧
     dictLookup "p1" (logout_peer sampleState3 (logoutReq "p1")).1.peers = none ∧
     (("a", ["p2"]) ∈ (logout_peer sampleState3 (logoutReq "p1")).1.channels →
       "p1" ∉ (("a", ["p2"]) : String × List String).2) ∧
     (get_channels (logout_peer sampleState3 (logoutReq "p1")).1
       (getChannelsReq "p1")).2.status = Status.success ∧
     (get_channels (logout_peer sampleState3 (logoutReq "p1")).1
       (getChannelsReq "p1")).2.channels = some [] ∧
     (get_channels (logout_peer sampleState3 (logoutReq "p1")).1
       (getChannelsReq "p1")).2.count = some 0) := by
  have hpn : PeersNodup sampleState3 := by
    unfold PeersNodup
    decide
  have hmn : MembersNodup sampleState3 := by
    unfold MembersNodup
    decide
  exact ⟨⟨by decide, hpn, hmn⟩,
    logout_cascade sampleState3 "p1" ("a", ["p2"]) (by decide) hpn hmn⟩

/-- Witness for C5 at a concrete state with two non-empty channels and a
concrete join request. -/
theorem channels_never_empty_witness :
    NonEmptyChannels sampleState3 ∧
    (NonEmptyChannels
      (handle_client 0 sampleState3 (Input.good (joinReq "p3" "c"))).1 ∧
     ((get_channels sampleState3 (getChannelsReq "p1")).2.channels =
        some ["a", "b"] → "a" ∈ ["a", "b"] →
      containsKey "a" sampleState3.channels = true) ∧
     (containsKey "a" sampleState3.channels = false →
      (get_peer_list sampleState3 (getPeersReq "a")).2.peers =
        some sampleState3.peers)) := by
  have hnec : NonEmptyChannels sampleState3 := by
    unfold NonEmptyChannels
    decide
  exact ⟨hnec,
    channels_never_empty 0 sampleState3 (Input.good (joinReq "p3" "c"))
      "p1" "a" ["a", "b"] hnec⟩

/-- C8: send_message builds the single chat payload carrying the type
tag, channel, sender peer_id, username and content, and writes it to
every currently connected peer regardless of channel membership; a
connection whose write fails is removed from the Connection Table —
exactly that one — and the message still reaches every other
connection. -/
theorem send_message_broadcast (fails : String → Bool) (st : ClientState)
    (channel content : String) (h : (keys st.connections).Nodup) :
    (send_message fails st channel content).2.1 =
      ChatMessage.mk "chat" channel st.peer_id st.username content ∧
    (send_message fails st channel content).2.2 =
      (st.connections.filter (fun e => !fails e.1)).map Prod.fst ∧
    (send_message fails st channel content).1.connections =
      st.connections.filter (fun e => !fails e.1) := by
  have hmsg : (send_message fails st channel content).2.1 =
      ChatMessage.mk "chat" channel st.peer_id st.username content := rfl
  have hsent : (send_message fails st channel content).2.2 =
      (st.connections.filter (fun e => !fails e.1)).map Prod.fst := by
    unfold send_message
    simp only [send_loop_spec fails st.connections st.connections []]
    simp
  have htab : (send_message fails st channel content).1.connections =
      st.connections.filter (fun e => !fails e.1) := by
    unfold send_message
    simp only [send_loop_spec fails st.connections st.connections []]
    show st.connections.foldl
      (fun t e => if fails e.1 then dictErase e.1 t else t) st.connections =
      st.connections.filter (fun e => !fails e.1)
    rw [erase_fold_spec fails st.connections st.connections h]
    apply List.filter_congr
    intro x hx
    have hany : st.connections.any (fun y => y.1 == x.1) = true :=
      List.any_eq_true.mpr ⟨x, hx, by simp⟩
    simp [hany]
  exact ⟨hmsg, hsent, htab⟩

/-- Witness for C8: a table of three connections where the write to bad
fails; the message reaches a and c and only bad is dropped. -/
theorem send_message_broadcast_witness :
    (keys sampleClient.connections).Nodup ∧
    ((send_message (fun k => k == "bad") sampleClient "general" "hi").2.1 =
      ChatMessage.mk "chat" "general" "me" "Alice" "hi" ∧
     (send_message (fun k => k == "bad") sampleClient "general" "hi").2.2 =
      (sampleClient.connections.filter
        (fun e => !(fun k => k == "bad") e.1)).map Prod.fst ∧
     (send_message (fun k => k == "bad") sampleClient "general" "hi").1.connections =
      sampleClient.connections.filter (fun e => !(fun k => k == "bad") e.1)) := by
  have h : (keys sampleClient.connections).Nodup := by decide
  exact ⟨h, by
    have hs := send_message_broadcast (fun k => k == "bad") sampleClient
      "general" "hi" h
    exact ⟨hs.1, hs.2.1, hs.2.2⟩⟩

/-- C9 counterexample: with the current channel set to general, an
incoming chat message tagged with the different channel other is still
dispatched to the local display (the chat line is printed), refuting the
claim that chat messages are displayed only when the channel matches. -/
theorem chat_display_not_filtered_cex :
    sampleClient.current_channel ≠ some "other" ∧
    handle_incoming_message sampleClient "px"
      { type := some "chat", channel := some "other",
        username := some "Bob", content := some "hi" } =
      [DisplayEvent.chatLine "Bob" "other" "hi"] := by
  constructor
  · decide
  · decide

/-- C9 (amended): a decoded message of type chat is always dispatched to
the local display regardless of its channel; the comparison with the
locally tracked current channel only decides whether the input prompt is
re-printed after the chat line; a message of any other type produces no
output at all. -/
theorem handle_incoming_message_spec (st : ClientState) (pid : String)
    (msg : Incoming) :
    (msg.type = some "chat" →
      DisplayEvent.chatLine (msg.username.getD pid) (msg.channel.getD "unknown")
          (msg.content.getD "") ∈ handle_incoming_message st pid msg ∧
      (DisplayEvent.promptLine st.username (msg.channel.getD "unknown")
          ∈ handle_incoming_message st pid msg ↔
        st.current_channel = some (msg.channel.getD "unknown"))) ∧
    (msg.type ≠ some "chat" → handle_incoming_message st pid msg = []) := by
  constructor
  · intro ht
    by_cases hc : st.current_channel = some (msg.channel.getD "unknown")
    · simp [handle_incoming_message, ht, hc]
    · simp [handle_incoming_message, ht, hc]
  · intro ht
    simp [handle_incoming_message, ht]

/-- Witness for the amended C9 at a concrete chat message with a
non-matching channel and at a concrete non-chat message. -/
theorem handle_incoming_message_spec_witness :
    ((some "chat" : Option String) = some "chat" ∧
     DisplayEvent.chatLine "Bob" "other" "hi" ∈
       handle_incoming_message sampleClient "px"
         { type := some "chat", channel := some "other",
           username := some "Bob", content := some "hi" } ∧
     (DisplayEvent.promptLine "Alice" "other" ∈
        handle_incoming_message sampleClient "px"
          { type := some "chat", channel := some "other",
            username := some "Bob", content := some "hi" } ↔
      sampleClient.current_channel = some "other")) ∧
    ((some "handshake" : Option String) ≠ some "chat" ∧
     handle_incoming_message sampleClient "px"
       { type := some "handshake", channel := none,
         username := none, content := none } = []) := by
  constructor
  · refine ⟨rfl, ?_⟩
    exact (handle_incoming_message_spec sampleClient "px"
      { type := some "chat", channel := some "other",
        username := some "Bob", content := some "hi" }).1 rfl
  · refine ⟨by decide, ?_⟩
    exact (handle_incoming_message_spec sampleClient "px"
      { type := some "handshake", channel := none,
        username := none, content := none }).2 (by decide)

/-- C10: required-field validation tests Python truthiness, not presence:
a register request whose peer_id or ip is the empty string, or whose port
is 0, and a join_channel request whose peer_id or channel is the empty
string, are answered with the same Missing-required-fields error as if
the field were absent, and the state is returned unchanged. -/
theorem falsy_fields_rejected (now : Nat) (s : ServerState) (req : Request) :
    ((req.peer_id = some "" ∨ req.ip = some "" ∨ req.port = some 0) →
      register_peer now s req =
        (s, { status := .error,
              message := some "Missing required fields: peer_id, ip, port" })) ∧
    ((req.peer_id = some "" ∨ req.channel = some "") →
      join_channel s req =
        (s, { status := .error,
              message := some "Missing required fields: peer_id, channel" })) := by
  constructor
  · intro h
    apply register_peer_missing
    rcases h with h | h | h <;> simp [truthyS, truthyN, h]
  · intro h
    apply join_channel_missing
    rcases h with h | h <;> simp [truthyS, h]

/-- Witness for C10: a request carrying peer_id present but empty, port
present but 0, and channel present but empty. -/
theorem falsy_fields_rejected_witness :
    (({ method := some "register", peer_id := some "", ip := some "1.2.3.4",
        port := some 0, channel := some "" } : Request).peer_id = some "" ∨
     ({ method := some "register", peer_id := some "", ip := some "1.2.3.4",
        port := some 0, channel := some "" } : Request).ip = some "" ∨
     ({ method := some "register", peer_id := some "", ip := some "1.2.3.4",
        port := some 0, channel := some "" } : Request).port = some 0) ∧
    (register_peer 0 sampleState1
        { method := some "register", peer_id := some "", ip := some "1.2.3.4",
          port := some 0, channel := some "" } =
      (sampleState1,
       { status := .error,
         message := some "Missing required fields: peer_id, ip, port" }) ∧
     join_channel sampleState1
        { method := some "register", peer_id := some "", ip := some "1.2.3.4",
          port := some 0, channel := some "" } =
      (sampleState1,
       { status := .error,
         message := some "Missing required fields: peer_id, channel" })) := by
  refine ⟨Or.inl rfl, ?_, ?_⟩
  · exact (falsy_fields_rejected 0 sampleState1
      { method := some "register", peer_id := some "", ip := some "1.2.3.4",
        port := some 0, channel := some "" }).1 (Or.inl rfl)
  · exact (falsy_fields_rejected 0 sampleState1
      { method := some "register", peer_id := some "", ip := some "1.2.3.4",
        port := some 0, channel := some "" }).2 (Or.inl rfl)

end P2PChat
